import Mathlib

/-!
Verification of the order-book-side decoder and traversal of mango-explorer
(`src/mango/orderbookside.py`) and the perp order-book watcher construction
(`src/mango/watchers.py`), as a shallow embedding in Lean 4.

Python `Decimal` values are modelled as exact rationals (`ℚ`), byte buffers as
`List Nat`, and the lazy generator `OrderBookSide.orders` as a fuel-indexed
total function returning `Option (List Order)` (`none` models a run that has
not finished within the given fuel, or an `IndexError` from an out-of-range
node index).
-/

namespace Mango

/-- Side of an order (`mango.orders.Side`). -/
inductive Side where
  | BUY
  | SELL
deriving DecidableEq

/-- Order type (`mango.orders.OrderType`); the traversal only ever uses `UNKNOWN`. -/
inductive OrderType where
  | UNKNOWN
  | LIMIT
  | IOC
  | POST_ONLY
deriving DecidableEq

/-- The account discriminant `layouts.DATA_TYPE`: the traversal only tests
whether it equals `Bids`, so every other discriminant is collapsed to two
representative values. -/
inductive DataType where
  | Bids
  | Asks
  | Other
deriving DecidableEq

/-- Metadata as used by `OrderBookSide.orders`: only `data_type` is read. -/
structure Metadata where
  data_type : DataType
deriving DecidableEq

/-- A token as read by the traversal: only its `decimals` field is used, as an
exponent of ten (an integer, since only the difference of two decimal counts
is exponentiated). -/
structure TokenInfo where
  decimals : ℤ
deriving DecidableEq

/-- The fields of `PerpMarketDetails` read by `OrderBookSide.orders`. -/
structure PerpMarketDetails where
  base_token : TokenInfo
  quote_token : TokenInfo
  base_lot_size : ℚ
  quote_lot_size : ℚ
deriving DecidableEq

/-- A decoded slab node. The Python code dispatches on the string
`node.type_name`, with branches for `"leaf"` and `"inner"` only; `free` and
`uninitialized` nodes fall through both branches. A leaf's `key` dictionary
carries `price` and `order_id` entries. -/
inductive Node where
  | leaf (key_price : ℚ) (key_order_id : ℤ) (quantity : ℚ) (owner : ℕ)
      (client_order_id : ℤ)
  | inner (child0 : ℕ) (child1 : ℕ)
  | uninitialized
  | free (next : ℕ)
deriving DecidableEq

/-- An order yielded by the traversal (`mango.orders.Order`). -/
structure Order where
  id : ℤ
  client_id : ℤ
  owner : ℕ
  side : Side
  price : ℚ
  quantity : ℚ
  order_type : OrderType
deriving DecidableEq

/-- Account info: the address and raw data of a fetched account. -/
structure AccountInfo where
  address : ℕ
  data : List ℕ
deriving DecidableEq

/-- Schema version tag (`mango.version.Version`); `parse` always uses `V1`. -/
inductive Version where
  | V1
  | V2
deriving DecidableEq

/-- The decoded `OrderBookSide`, with every constructor field of the Python
class (`account_info` comes from the `AddressableAccount` superclass). -/
structure OrderBookSide where
  account_info : AccountInfo
  version : Version
  meta_data : Metadata
  perp_market_details : PerpMarketDetails
  bump_index : ℚ
  free_list_len : ℚ
  free_list_head : ℚ
  root_node : ℕ
  leaf_count : ℕ
  nodes : List Node
deriving DecidableEq

/-- The factor `Decimal(10) ** decimals_differential` with
`decimals_differential = base_token.decimals - quote_token.decimals`. -/
def native_to_ui (pmd : PerpMarketDetails) : ℚ :=
  (10 : ℚ) ^ (pmd.base_token.decimals - pmd.quote_token.decimals)

/-- The scaled price `price * (quote_lot_size / base_lot_size) * native_to_ui`. -/
def actual_price (pmd : PerpMarketDetails) (price : ℚ) : ℚ :=
  price * (pmd.quote_lot_size / pmd.base_lot_size) * native_to_ui pmd

/-- The factor `Decimal(10) ** base_token.decimals`. -/
def base_factor (pmd : PerpMarketDetails) : ℚ :=
  (10 : ℚ) ^ pmd.base_token.decimals

/-- The scaled quantity `(quantity * base_lot_size) / base_factor`. -/
def actual_quantity (pmd : PerpMarketDetails) (quantity : ℚ) : ℚ :=
  quantity * pmd.base_lot_size / base_factor pmd

/-- The order built at a leaf node inside `OrderBookSide.orders`. -/
def leafOrder (pmd : PerpMarketDetails) (order_side : Side) (key_price : ℚ)
    (key_order_id : ℤ) (quantity : ℚ) (owner : ℕ) (client_order_id : ℤ) :
    Order :=
  { id := key_order_id
    client_id := client_order_id
    owner := owner
    side := order_side
    price := actual_price pmd key_price
    quantity := actual_quantity pmd quantity
    order_type := OrderType.UNKNOWN }

/-- The `while len(stack) > 0` loop of `OrderBookSide.orders`, with fuel.

The Python list is modelled with its LAST element (the one `stack.pop()`
removes) at the HEAD of the Lean list, so the Python prepend
`stack = [children[0], children[1], *stack]` becomes an append of
`[children[1], children[0]]` at the tail here, and the sell-side prepend
`[children[1], children[0], *stack]` becomes an append of
`[children[0], children[1]]`.

`none` models either fuel running out with the stack still non-empty (the
Python loop still running) or `IndexError` from `self.nodes[index]`. -/
def ordersLoop (nodes : List Node) (pmd : PerpMarketDetails)
    (order_side : Side) : ℕ → List ℕ → Option (List Order)
  | _, [] => some []
  | 0, _ :: _ => none
  | fuel + 1, index :: stack =>
    match nodes[index]? with
    | none => none
    | some (Node.leaf kp koid q own coid) =>
      (ordersLoop nodes pmd order_side fuel stack).map
        (fun rest => leafOrder pmd order_side kp koid q own coid :: rest)
    | some (Node.inner c0 c1) =>
      if order_side = Side.BUY then
        ordersLoop nodes pmd order_side fuel (stack ++ [c1, c0])
      else
        ordersLoop nodes pmd order_side fuel (stack ++ [c0, c1])
    | some Node.uninitialized => ordersLoop nodes pmd order_side fuel stack
    | some (Node.free _) => ordersLoop nodes pmd order_side fuel stack

/-- The side chosen at the top of `OrderBookSide.orders`:
`BUY` when `meta_data.data_type == layouts.DATA_TYPE.Bids`, else `SELL`. -/
def OrderBookSide.order_side (s : OrderBookSide) : Side :=
  if s.meta_data.data_type = DataType.Bids then Side.BUY else Side.SELL

/-- The traversal `OrderBookSide.orders`: immediately returns the empty sequence when
`leaf_count == 0`; otherwise runs the traversal loop from `[root_node]`. -/
def OrderBookSide.orders (s : OrderBookSide) (fuel : ℕ) :
    Option (List Order) :=
  if s.leaf_count = 0 then some []
  else ordersLoop s.nodes s.perp_market_details s.order_side fuel [s.root_node]

/-- The value produced by a successful layout parse: one field per header
field read by `OrderBookSide.from_layout`, plus the node array. -/
structure LayoutValue where
  meta_data : Metadata
  bump_index : ℚ
  free_list_len : ℚ
  free_list_head : ℚ
  root_node : ℕ
  leaf_count : ℕ
  nodes : List Node
deriving DecidableEq

/-- Modelled from the spec: the construct layout `layouts.ORDERBOOK_SIDE`
(`layouts.py` is not part of this source tree). `sizeof` is a fixed constant
(header size plus node-capacity times node size) and `decode` is total on
buffers: header fields are read at fixed offsets, then the node array is
decoded element-wise by leading discriminant, with no validation beyond the
size of the buffer — malformed discriminants never make the decode fail. -/
structure OrderBookSideLayout where
  layout_sizeof : ℕ
  layout_decode : List ℕ → LayoutValue

/-- The decode-size-mismatch failure raised by `OrderBookSide.parse`,
carrying the actual buffer length and the expected fixed size. -/
inductive DecodeError where
  | sizeMismatch (actual : ℕ) (expected : ℕ)
deriving DecidableEq

/-- The builder `OrderBookSide.from_layout`: copies each decoded layout field into a new
`OrderBookSide` value. -/
def OrderBookSide.from_layout (layout : LayoutValue)
    (account_info : AccountInfo) (version : Version)
    (perp_market_details : PerpMarketDetails) : OrderBookSide :=
  { account_info := account_info
    version := version
    meta_data := layout.meta_data
    perp_market_details := perp_market_details
    bump_index := layout.bump_index
    free_list_len := layout.free_list_len
    free_list_head := layout.free_list_head
    root_node := layout.root_node
    leaf_count := layout.leaf_count
    nodes := layout.nodes }

/-- The decoder `OrderBookSide.parse`: raises when the data length differs from
`layouts.ORDERBOOK_SIDE.sizeof()` (the error carries both lengths), and
otherwise decodes the whole buffer and builds the value via `from_layout`
with version `V1`. -/
def OrderBookSide.parse (layout : OrderBookSideLayout)
    (account_info : AccountInfo)
    (perp_market_details : PerpMarketDetails) :
    Except DecodeError OrderBookSide :=
  if account_info.data.length ≠ layout.layout_sizeof then
    Except.error
      (DecodeError.sizeMismatch account_info.data.length layout.layout_sizeof)
  else
    Except.ok
      (OrderBookSide.from_layout (layout.layout_decode account_info.data)
        account_info Version.V1 perp_market_details)

/-- Failures of `OrderBookSide.load`: the account was not found at the
address, or the fetched data failed to parse. -/
inductive LoadError where
  | accountNotFound (address : ℕ)
  | decodeFailed (e : DecodeError)
deriving DecidableEq

/-- Modelled from the spec: `AccountInfo.load` (`accountinfo.py` is not part
of this source tree) is the synchronous `fetch(address) -> bytes | not_found`
collaborator, represented as a function argument. -/
def AccountInfo.load (fetch : ℕ → Option AccountInfo) (address : ℕ) :
    Option AccountInfo :=
  fetch address

/-- The loader `OrderBookSide.load`: fetches the account info at the address, raises
when none is found, and otherwise parses it (a parse failure propagates). -/
def OrderBookSide.load (fetch : ℕ → Option AccountInfo)
    (layout : OrderBookSideLayout) (address : ℕ)
    (perp_market_details : PerpMarketDetails) :
    Except LoadError OrderBookSide :=
  match AccountInfo.load fetch address with
  | none => Except.error (LoadError.accountNotFound address)
  | some account_info =>
    match OrderBookSide.parse layout account_info perp_market_details with
    | Except.error e => Except.error (LoadError.decodeFailed e)
    | Except.ok s => Except.ok s

/-- The side selector `OrderBookSideType` from `orderbookside.py`'s later revision, as imported
by `watchers.py`: selects the bids or the asks account of a perp market. -/
inductive OrderBookSideType where
  | BIDS
  | ASKS
deriving DecidableEq

/-- The fields of `PerpMarket.underlying_perp_market` read by
`build_perp_orderbook_side_watcher`: the bids and asks account addresses,
and the market details the parse consumes. -/
structure UnderlyingPerpMarket where
  bids : ℕ
  asks : ℕ
  details : PerpMarketDetails
deriving DecidableEq

/-- The perp market as read by `build_perp_orderbook_side_watcher`. -/
structure PerpMarket where
  underlying_perp_market : UnderlyingPerpMarket
deriving DecidableEq

/-- Modelled from the spec: `WebSocketSubscriptionManager.add` registers a
subscription; the manager is represented by the list of addresses whose
subscriptions were added, in order. -/
structure SubscriptionManager where
  subscribed_addresses : List ℕ
deriving DecidableEq

/-- Modelled from the spec: the liveness registry (`HealthCheck.add` names);
represented by the list of registered feed names, in order. -/
structure HealthCheck where
  feed_names : List String
deriving DecidableEq

/-- Modelled from the spec: `LatestItemObserverSubscriber` is a single-slot
cell seeded with an initial value at construction. -/
structure LatestItemObserverSubscriber (α : Type) where
  latest : α

/-- The watcher builder `build_perp_orderbook_side_watcher`: picks the bids or asks address,
synchronously fetches it (raising when nothing is found, before any
subscription or observer is created), parses it as an order-book side (the
later revision's `PerpOrderBookSide.parse`, modelled by `OrderBookSide.parse`
— the spec describes a single decoder), then creates and registers the
subscription, seeds the observer cell with the initial side's `orders()`,
and registers the feed with the health check. The returned manager and
health check reflect exactly the registrations the call performed. -/
def build_perp_orderbook_side_watcher (fetch : ℕ → Option AccountInfo)
    (layout : OrderBookSideLayout) (manager : SubscriptionManager)
    (health_check : HealthCheck) (perp_market : PerpMarket)
    (side : OrderBookSideType) (fuel : ℕ) :
    Except LoadError (LatestItemObserverSubscriber (Option (List Order))) ×
      SubscriptionManager × HealthCheck :=
  let orderbook_address : ℕ :=
    if side = OrderBookSideType.BIDS then perp_market.underlying_perp_market.bids
    else perp_market.underlying_perp_market.asks
  match AccountInfo.load fetch orderbook_address with
  | none =>
    (Except.error (LoadError.accountNotFound orderbook_address), manager,
      health_check)
  | some orderbook_side_info =>
    match OrderBookSide.parse layout orderbook_side_info
        perp_market.underlying_perp_market.details with
    | Except.error e =>
      (Except.error (LoadError.decodeFailed e), manager, health_check)
    | Except.ok initial_orderbook_side =>
      let manager' : SubscriptionManager :=
        { subscribed_addresses :=
            manager.subscribed_addresses ++ [orderbook_address] }
      let latest_orders_observer :
          LatestItemObserverSubscriber (Option (List Order)) :=
        { latest := initial_orderbook_side.orders fuel }
      let health_check' : HealthCheck :=
        { feed_names :=
            health_check.feed_names ++ ["orderbook_side_subscription"] }
      (Except.ok latest_orders_observer, manager', health_check')

/-- Depth-bounded validity check of the node graph below an index: within
`depth` levels, every reached index is in range of the node array and every
`inner` node's two children are themselves valid one level lower. A `true`
result means the reachable graph is a finite tree of height below `depth`
with all indices in range. -/
def wellFormedBelow (nodes : List Node) : ℕ → ℕ → Bool
  | 0, _ => false
  | depth + 1, i =>
    match nodes[i]? with
    | none => false
    | some (Node.inner c0 c1) =>
      wellFormedBelow nodes depth c0 && wellFormedBelow nodes depth c1
    | some _ => true

/-- Number of nodes of the depth-bounded tree below an index (each node
counts one; truncated at the depth bound, which never happens on a
`wellFormedBelow` tree). -/
def subtreeSize (nodes : List Node) : ℕ → ℕ → ℕ
  | 0, _ => 1
  | depth + 1, i =>
    match nodes[i]? with
    | some (Node.inner c0 c1) =>
      1 + subtreeSize nodes depth c0 + subtreeSize nodes depth c1
    | _ => 1

/-- The leaf key prices below an index, in left-to-right
(`child0` before `child1`) order, depth-bounded. -/
def subtreeLeafPrices (nodes : List Node) : ℕ → ℕ → List ℚ
  | 0, _ => []
  | depth + 1, i =>
    match nodes[i]? with
    | some (Node.leaf kp _ _ _ _) => [kp]
    | some (Node.inner c0 c1) =>
      subtreeLeafPrices nodes depth c0 ++ subtreeLeafPrices nodes depth c1
    | _ => []

/-- The venue invariant assumed by the claims: at every `inner` node below
the index, every leaf key price in the `child0` subtree is at most every
leaf key price in the `child1` subtree (the price is the major component of
the key, so a lesser-keyed subtree has prices at most those of the other). -/
def keyOrderedBelow (nodes : List Node) : ℕ → ℕ → Bool
  | 0, _ => true
  | depth + 1, i =>
    match nodes[i]? with
    | some (Node.inner c0 c1) =>
      keyOrderedBelow nodes depth c0 && keyOrderedBelow nodes depth c1 &&
        (subtreeLeafPrices nodes depth c0).all (fun p =>
          (subtreeLeafPrices nodes depth c1).all (fun q => decide (p ≤ q)))
    | _ => true

/-- Modelled from the spec: the depth-first traversal the specification
describes — at an `inner` node on the buy side the WHOLE `child1` subtree is
emitted before the whole `child0` subtree, and on the sell side the whole
`child0` subtree before the whole `child1` subtree. Depth-bounded; compared
against the code's `ordersLoop` for the refinement claims. -/
def specDfsOrders (nodes : List Node) (pmd : PerpMarketDetails)
    (order_side : Side) : ℕ → ℕ → List Order
  | 0, _ => []
  | depth + 1, i =>
    match nodes[i]? with
    | some (Node.leaf kp koid q own coid) =>
      [leafOrder pmd order_side kp koid q own coid]
    | some (Node.inner c0 c1) =>
      if order_side = Side.BUY then
        specDfsOrders nodes pmd order_side depth c1 ++
          specDfsOrders nodes pmd order_side depth c0
      else
        specDfsOrders nodes pmd order_side depth c0 ++
          specDfsOrders nodes pmd order_side depth c1
    | _ => []

/-- A scaling with zero decimals and unit lot sizes, under which the UI
price of a leaf equals its native key price. -/
def pmdUnit : PerpMarketDetails :=
  { base_token := { decimals := 0 }
    quote_token := { decimals := 0 }
    base_lot_size := 1
    quote_lot_size := 1 }

/-- A five-node bids slab: root `inner 1 2`, whose `child0` is the leaf with
price 1 and whose `child1` is `inner 3 4` over the leaves with prices 2 and
3. Every `inner` node's `child0` subtree is lesser-keyed, so the tree
satisfies the venue invariant. -/
def cexNodes : List Node :=
  [Node.inner 1 2,
   Node.leaf 1 10 1 7 100,
   Node.inner 3 4,
   Node.leaf 2 20 1 7 200,
   Node.leaf 3 30 1 7 300]

/-- The decoded bids `OrderBookSide` over `cexNodes`. -/
def cexSide : OrderBookSide :=
  { account_info := { address := 0, data := [] }
    version := Version.V1
    meta_data := { data_type := DataType.Bids }
    perp_market_details := pmdUnit
    bump_index := 5
    free_list_len := 0
    free_list_head := 0
    root_node := 0
    leaf_count := 3
    nodes := cexNodes }

/-- The market scaling of the worked example: 6 base decimals, 6 quote
decimals, base lot size 100, quote lot size 1. -/
def pmdExample : PerpMarketDetails :=
  { base_token := { decimals := 6 }
    quote_token := { decimals := 6 }
    base_lot_size := 100
    quote_lot_size := 1 }

/-- An `OrderBookSide` with `leaf_count = 0` but an out-of-range `root_node`
and a non-empty node array, exercising the early return of `orders`. -/
def emptySide : OrderBookSide :=
  { cexSide with leaf_count := 0, root_node := 1000 }

/-- A concrete layout with a two-byte expected size and a decode returning a
fixed empty slab, used to instantiate the codec theorems. -/
def layoutUnit : OrderBookSideLayout :=
  { layout_sizeof := 2
    layout_decode := fun _ =>
      { meta_data := { data_type := DataType.Bids }
        bump_index := 0
        free_list_len := 0
        free_list_head := 0
        root_node := 0
        leaf_count := 0
        nodes := [] } }

/-- A three-byte buffer, the wrong length for `layoutUnit`. -/
def aiBad : AccountInfo :=
  { address := 11, data := [1, 2, 3] }

/-- A two-byte buffer, exactly the expected length of `layoutUnit`. -/
def aiGood : AccountInfo :=
  { address := 11, data := [9, 9] }

/-- A fetch collaborator that finds no account at any address. -/
def fetchNone : ℕ → Option AccountInfo := fun _ => none

/-- A fetch collaborator that returns `aiGood` at every address. -/
def fetchGood : ℕ → Option AccountInfo := fun _ => some aiGood

/-- A perp market whose bids are at address 11 and asks at address 12. -/
def perpMarketExample : PerpMarket :=
  { underlying_perp_market := { bids := 11, asks := 12, details := pmdUnit } }

/-- An empty subscription manager. -/
def manager0 : SubscriptionManager :=
  { subscribed_addresses := [] }

/-- An empty health check registry. -/
def healthCheck0 : HealthCheck :=
  { feed_names := [] }

/-- The order list the traversal yields on `cexSide`: the `child0` leaf
(price 1) first, then the two `child1` leaves in the order priced 3 then 2. -/
def cexOrdersList : List Order :=
  [leafOrder pmdUnit Side.BUY 1 10 1 7 100,
   leafOrder pmdUnit Side.BUY 3 30 1 7 300,
   leafOrder pmdUnit Side.BUY 2 20 1 7 200]

/-- The order book side decoded from `aiGood` under `layoutUnit`. -/
def sideGood : OrderBookSide :=
  OrderBookSide.from_layout (layoutUnit.layout_decode aiGood.data) aiGood
    Version.V1 pmdUnit

/-- A successful traversal run is stable under extra fuel. -/
lemma ordersLoop_mono (nodes : List Node) (pmd : PerpMarketDetails)
    (os : Side) :
    ∀ fuel fuel' stack l, fuel ≤ fuel' →
      ordersLoop nodes pmd os fuel stack = some l →
      ordersLoop nodes pmd os fuel' stack = some l := by
  intro fuel
  induction fuel with
  | zero =>
    intro fuel' stack l _ h
    cases stack with
    | nil =>
      simp only [ordersLoop, Option.some.injEq] at h
      cases fuel' <;> simp [ordersLoop, h]
    | cons index stack => simp [ordersLoop] at h
  | succ fuel ih =>
    intro fuel' stack l hle h
    cases stack with
    | nil =>
      simp only [ordersLoop, Option.some.injEq] at h
      cases fuel' <;> simp [ordersLoop, h]
    | cons index stack =>
      obtain ⟨f, rfl⟩ : ∃ f, fuel' = f + 1 := ⟨fuel' - 1, by omega⟩
      have hf : fuel ≤ f := by omega
      rw [ordersLoop] at h ⊢
      cases hn : nodes[index]? with
      | none => rw [hn] at h; simp at h
      | some node =>
        rw [hn] at h
        cases node with
        | leaf kp koid q own coid =>
          dsimp only at h ⊢
          simp only [Option.map_eq_some'] at h ⊢
          obtain ⟨rest, hrest, rfl⟩ := h
          exact ⟨rest, ih f stack rest hf hrest, rfl⟩
        | inner c0 c1 =>
          dsimp only at h ⊢
          by_cases hb : os = Side.BUY
          · simp only [if_pos hb] at h ⊢
            exact ih f _ l hf h
          · simp only [if_neg hb] at h ⊢
            exact ih f _ l hf h
        | uninitialized => dsimp only at h ⊢; exact ih f stack l hf h
        | free nxt => dsimp only at h ⊢; exact ih f stack l hf h

/-- Validity at some depth bound persists at any larger bound. -/
lemma wellFormedBelow_mono (nodes : List Node) :
    ∀ d d' i, d ≤ d' → wellFormedBelow nodes d i = true →
      wellFormedBelow nodes d' i = true := by
  intro d
  induction d with
  | zero => intro d' i _ h; simp [wellFormedBelow] at h
  | succ d ih =>
    intro d' i hle h
    obtain ⟨d'', rfl⟩ : ∃ e, d' = e + 1 := ⟨d' - 1, by omega⟩
    have hdd : d ≤ d'' := by omega
    rw [wellFormedBelow] at h ⊢
    cases hn : nodes[i]? with
    | none => rw [hn] at h; simp at h
    | some node =>
      rw [hn] at h
      cases node with
      | inner c0 c1 =>
        dsimp only at h ⊢
        simp only [Bool.and_eq_true] at h ⊢
        exact ⟨ih d'' c0 hdd h.1, ih d'' c1 hdd h.2⟩
      | leaf kp koid q own coid => rfl
      | uninitialized => rfl
      | free nxt => rfl

/-- The node count of a valid subtree does not change when the depth bound
grows. -/
lemma subtreeSize_stable (nodes : List Node) :
    ∀ d d' i, d ≤ d' → wellFormedBelow nodes d i = true →
      subtreeSize nodes d' i = subtreeSize nodes d i := by
  intro d
  induction d with
  | zero => intro d' i _ h; simp [wellFormedBelow] at h
  | succ d ih =>
    intro d' i hle h
    obtain ⟨d'', rfl⟩ : ∃ e, d' = e + 1 := ⟨d' - 1, by omega⟩
    have hdd : d ≤ d'' := by omega
    rw [wellFormedBelow] at h
    rw [subtreeSize, subtreeSize]
    cases hn : nodes[i]? with
    | none => rfl
    | some node =>
      rw [hn] at h
      cases node with
      | inner c0 c1 =>
        dsimp only at h ⊢
        simp only [Bool.and_eq_true] at h
        rw [ih d'' c0 hdd h.1, ih d'' c1 hdd h.2]
      | leaf kp koid q own coid => rfl
      | uninitialized => rfl
      | free nxt => rfl

/-- Every depth-bounded subtree counts at least its own node. -/
lemma one_le_subtreeSize (nodes : List Node) (d i : ℕ) :
    1 ≤ subtreeSize nodes d i := by
  cases d with
  | zero => simp [subtreeSize]
  | succ d =>
    rw [subtreeSize]
    cases nodes[i]? with
    | none => exact Nat.le_refl 1
    | some node => cases node <;> dsimp only <;> omega

/-- Termination of the traversal loop: when every index on the stack roots a
valid depth-bounded tree and the fuel is at least the total node count of
those trees, the loop finishes. -/
lemma ordersLoop_isSome (nodes : List Node) (pmd : PerpMarketDetails)
    (os : Side) (d : ℕ) :
    ∀ fuel stack, (∀ i ∈ stack, wellFormedBelow nodes d i = true) →
      (stack.map (subtreeSize nodes d)).sum ≤ fuel →
      (ordersLoop nodes pmd os fuel stack).isSome := by
  intro fuel
  induction fuel with
  | zero =>
    intro stack hwf hm
    cases stack with
    | nil => simp [ordersLoop]
    | cons index stack =>
      exfalso
      have h1 := one_le_subtreeSize nodes d index
      simp only [List.map_cons, List.sum_cons] at hm
      omega
  | succ fuel ih =>
    intro stack hwf hm
    cases stack with
    | nil => simp [ordersLoop]
    | cons index stack =>
      have hwfi : wellFormedBelow nodes d index = true :=
        hwf index (List.mem_cons_self index stack)
      have hwfs : ∀ i ∈ stack, wellFormedBelow nodes d i = true :=
        fun i hi => hwf i (List.mem_cons_of_mem index hi)
      simp only [List.map_cons, List.sum_cons] at hm
      cases d with
      | zero => simp [wellFormedBelow] at hwfi
      | succ d =>
        rw [wellFormedBelow] at hwfi
        rw [ordersLoop]
        cases hn : nodes[index]? with
        | none => rw [hn] at hwfi; simp at hwfi
        | some node =>
          rw [hn] at hwfi
          cases node with
          | leaf kp koid q own coid =>
            dsimp only
            simp only [Option.isSome_map']
            refine ih stack hwfs ?_
            have h1 := one_le_subtreeSize nodes (d + 1) index
            omega
          | inner c0 c1 =>
            dsimp only at hwfi ⊢
            simp only [Bool.and_eq_true] at hwfi
            have hc0 : wellFormedBelow nodes (d + 1) c0 = true :=
              wellFormedBelow_mono nodes d (d + 1) c0 (by omega) hwfi.1
            have hc1 : wellFormedBelow nodes (d + 1) c1 = true :=
              wellFormedBelow_mono nodes d (d + 1) c1 (by omega) hwfi.2
            have hsz : subtreeSize nodes (d + 1) index =
                1 + subtreeSize nodes d c0 + subtreeSize nodes d c1 := by
              rw [subtreeSize, hn]
            have hs0 : subtreeSize nodes (d + 1) c0 = subtreeSize nodes d c0 :=
              subtreeSize_stable nodes d (d + 1) c0 (by omega) hwfi.1
            have hs1 : subtreeSize nodes (d + 1) c1 = subtreeSize nodes d c1 :=
              subtreeSize_stable nodes d (d + 1) c1 (by omega) hwfi.2
            have hwf' : ∀ b ∈ [c1, c0], wellFormedBelow nodes (d + 1) b = true := by
              intro b hb
              simp only [List.mem_cons, List.not_mem_nil, or_false] at hb
              rcases hb with rfl | rfl
              · exact hc1
              · exact hc0
            have hwf'' : ∀ b ∈ [c0, c1], wellFormedBelow nodes (d + 1) b = true := by
              intro b hb
              simp only [List.mem_cons, List.not_mem_nil, or_false] at hb
              rcases hb with rfl | rfl
              · exact hc0
              · exact hc1
            by_cases hb : os = Side.BUY
            · simp only [if_pos hb]
              refine ih (stack ++ [c1, c0]) ?_ ?_
              · intro i hi
                rcases List.mem_append.mp hi with hi | hi
                · exact hwfs i hi
                · exact hwf' i hi
              · simp only [List.map_append, List.sum_append, List.map_cons,
                  List.sum_cons, List.map_nil, List.sum_nil]
                omega
            · simp only [if_neg hb]
              refine ih (stack ++ [c0, c1]) ?_ ?_
              · intro i hi
                rcases List.mem_append.mp hi with hi | hi
                · exact hwfs i hi
                · exact hwf'' i hi
              · simp only [List.map_append, List.sum_append, List.map_cons,
                  List.sum_cons, List.map_nil, List.sum_nil]
                omega
          | uninitialized =>
            dsimp only
            refine ih stack hwfs ?_
            have h1 := one_le_subtreeSize nodes (d + 1) index
            omega
          | free nxt =>
            dsimp only
            refine ih stack hwfs ?_
            have h1 := one_le_subtreeSize nodes (d + 1) index
            omega

/-- Every order emitted by the traversal loop is built by `leafOrder`, at the
side chosen before the loop, from some leaf node of the array. -/
lemma ordersLoop_mem (nodes : List Node) (pmd : PerpMarketDetails)
    (os : Side) :
    ∀ fuel stack l, ordersLoop nodes pmd os fuel stack = some l →
      ∀ o ∈ l, ∃ (i : ℕ) (kp : ℚ) (koid : ℤ) (q : ℚ) (own : ℕ) (coid : ℤ),
        nodes[i]? = some (Node.leaf kp koid q own coid) ∧
        o = leafOrder pmd os kp koid q own coid := by
  intro fuel
  induction fuel with
  | zero =>
    intro stack l h o ho
    cases stack with
    | nil =>
      simp only [ordersLoop, Option.some.injEq] at h
      subst h; simp at ho
    | cons index stack => simp [ordersLoop] at h
  | succ fuel ih =>
    intro stack l h o ho
    cases stack with
    | nil =>
      simp only [ordersLoop, Option.some.injEq] at h
      subst h; simp at ho
    | cons index stack =>
      rw [ordersLoop] at h
      cases hn : nodes[index]? with
      | none => rw [hn] at h; simp at h
      | some node =>
        rw [hn] at h
        cases node with
        | leaf kp koid q own coid =>
          dsimp only at h
          simp only [Option.map_eq_some'] at h
          obtain ⟨rest, hrest, rfl⟩ := h
          rcases List.mem_cons.mp ho with rfl | ho'
          · exact ⟨index, kp, koid, q, own, coid, hn, rfl⟩
          · exact ih stack rest hrest o ho'
        | inner c0 c1 =>
          dsimp only at h
          by_cases hb : os = Side.BUY
          · rw [if_pos hb] at h
            exact ih _ l h o ho
          · rw [if_neg hb] at h
            exact ih _ l h o ho
        | uninitialized =>
          dsimp only at h
          exact ih stack l h o ho
        | free nxt =>
          dsimp only at h
          exact ih stack l h o ho

/-- Evaluation of the traversal on the counterexample slab: the `child0`
leaf of the root is emitted first because the loop pops from the opposite
end of the list from where the children were pushed. -/
lemma cexSide_orders_eval : cexSide.orders 10 = some cexOrdersList := by
  simp [OrderBookSide.orders, ordersLoop, cexSide, cexNodes, cexOrdersList,
    OrderBookSide.order_side]

/-- C1: the claim that for every valid, key-ordered decoded tree the price
sequence of `orders()` is monotonically non-increasing on the buy side FAILS
on the code: `cexSide` is a well-formed bids tree in which every inner
node's `child0` subtree is the lesser-keyed one, yet the traversal yields
the price sequence `[1, 3, 2]`, which is not non-increasing. -/
theorem c1_bids_prices_unsorted_on_valid_tree :
    wellFormedBelow cexSide.nodes 3 cexSide.root_node = true ∧
    keyOrderedBelow cexSide.nodes 3 cexSide.root_node = true ∧
    cexSide.order_side = Side.BUY ∧
    (cexSide.orders 10).map (List.map Order.price) = some [1, 3, 2] ∧
    ¬ List.Chain' (fun p q : ℚ => q ≤ p) [1, 3, 2] := by
  refine ⟨by decide, by decide, by decide, ?_, by norm_num [List.chain'_cons]⟩
  simp [OrderBookSide.orders, ordersLoop, cexSide, cexNodes, leafOrder,
    actual_price, actual_quantity, native_to_ui, base_factor, pmdUnit,
    OrderBookSide.order_side]

/-- C2: the claim that the loop is a depth-first traversal visiting, on the
buy side, the whole `child1` subtree before the whole `child0` subtree FAILS
on the code: `stack.pop()` removes the LAST element of the Python list while
the children are prepended at the FRONT, so on `cexSide` the code emits the
root's `child0` leaf (price 1) before the `child1` subtree leaves (prices 3
then 2), whereas the depth-first order the claim describes yields prices
`[3, 2, 1]`. -/
theorem c2_traversal_not_depth_first :
    (cexSide.orders 10).map (List.map Order.price) = some [1, 3, 2] ∧
    (specDfsOrders cexSide.nodes cexSide.perp_market_details
        cexSide.order_side 3 cexSide.root_node).map Order.price = [3, 2, 1] ∧
    cexSide.orders 10 ≠
      some (specDfsOrders cexSide.nodes cexSide.perp_market_details
        cexSide.order_side 3 cexSide.root_node) := by
  refine ⟨?_, ?_, ?_⟩ <;>
    simp [OrderBookSide.orders, ordersLoop, specDfsOrders, cexSide, cexNodes,
      leafOrder, actual_price, actual_quantity, native_to_ui, base_factor,
      pmdUnit, OrderBookSide.order_side]

/-- C3: `parse` fails if and only if the buffer length differs from the
layout's fixed size, failing with an error that carries both the actual and
the expected size and returning no value; on a buffer of exactly the
expected size it returns the fully decoded `OrderBookSide` (the decode is
total, so no discriminant validation can fail). -/
theorem c3_parse_size_check (layout : OrderBookSideLayout) (ai : AccountInfo)
    (pmd : PerpMarketDetails) :
    (ai.data.length ≠ layout.layout_sizeof →
      OrderBookSide.parse layout ai pmd =
        Except.error
          (DecodeError.sizeMismatch ai.data.length layout.layout_sizeof)) ∧
    (ai.data.length = layout.layout_sizeof →
      OrderBookSide.parse layout ai pmd =
        Except.ok (OrderBookSide.from_layout (layout.layout_decode ai.data) ai
          Version.V1 pmd)) := by
  constructor
  · intro h
    rw [OrderBookSide.parse, if_pos h]
  · intro h
    rw [OrderBookSide.parse, if_neg (fun hc => hc h)]

/-- C3 witness: a three-byte buffer fails against the two-byte layout with
both sizes reported, and a two-byte buffer decodes to a full value. -/
theorem c3_parse_size_check_witness :
    OrderBookSide.parse layoutUnit aiBad pmdUnit =
      Except.error (DecodeError.sizeMismatch 3 2) ∧
    OrderBookSide.parse layoutUnit aiGood pmdUnit =
      Except.ok (OrderBookSide.from_layout (layoutUnit.layout_decode aiGood.data)
        aiGood Version.V1 pmdUnit) :=
  ⟨(c3_parse_size_check layoutUnit aiBad pmdUnit).1 (by decide),
   (c3_parse_size_check layoutUnit aiGood pmdUnit).2 (by decide)⟩

/-- C4: when `leaf_count = 0`, `orders()` yields the empty sequence, for
every `root_node` value and every content of the node array. -/
theorem c4_orders_empty_of_zero_leaf_count (s : OrderBookSide) (fuel : ℕ)
    (h : s.leaf_count = 0) : s.orders fuel = some [] := by
  simp [OrderBookSide.orders, h]

/-- C4 witness: `emptySide` has `leaf_count = 0`, an out-of-range root and a
non-empty node array, yet its `orders` run yields the empty sequence. -/
theorem c4_orders_empty_of_zero_leaf_count_witness :
    emptySide.leaf_count = 0 ∧ emptySide.orders 0 = some [] :=
  ⟨rfl, c4_orders_empty_of_zero_leaf_count emptySide 0 rfl⟩

/-- C5: every yielded order's price and quantity come from some leaf node
through the exact rational scaling formulas
`price * (quote_lot_size / base_lot_size) * 10 ^ (base_decimals - quote_decimals)`
and `quantity * base_lot_size / 10 ^ base_decimals`; and at the worked
scaling (6/6 decimals, lot sizes 100/1) native price 500 gives exactly 5 and
native quantity 200 gives exactly 1/50 = 0.02. -/
theorem c5_orders_scaling (s : OrderBookSide) (fuel : ℕ) (l : List Order)
    (h : s.orders fuel = some l) :
    (∀ o ∈ l, ∃ (i : ℕ) (kp : ℚ) (koid : ℤ) (q : ℚ) (own : ℕ) (coid : ℤ),
        s.nodes[i]? = some (Node.leaf kp koid q own coid) ∧
        o.price = actual_price s.perp_market_details kp ∧
        o.quantity = actual_quantity s.perp_market_details q) ∧
    actual_price pmdExample 500 = 5 ∧
    actual_quantity pmdExample 200 = 1 / 50 := by
  refine ⟨?_, ?_, ?_⟩
  · intro o ho
    rw [OrderBookSide.orders] at h
    by_cases h0 : s.leaf_count = 0
    · rw [if_pos h0] at h
      simp only [Option.some.injEq] at h
      subst h
      simp at ho
    · rw [if_neg h0] at h
      obtain ⟨i, kp, koid, q, own, coid, hn, rfl⟩ :=
        ordersLoop_mem s.nodes s.perp_market_details s.order_side fuel _ l h o ho
      exact ⟨i, kp, koid, q, own, coid, hn, rfl, rfl⟩
  · norm_num [actual_price, native_to_ui, pmdExample]
  · norm_num [actual_quantity, base_factor, pmdExample]

/-- C5 witness: the scaling properties instantiated on the concrete
counterexample run. -/
theorem c5_orders_scaling_witness :
    (∀ o ∈ cexOrdersList,
      ∃ (i : ℕ) (kp : ℚ) (koid : ℤ) (q : ℚ) (own : ℕ) (coid : ℤ),
        cexSide.nodes[i]? = some (Node.leaf kp koid q own coid) ∧
        o.price = actual_price cexSide.perp_market_details kp ∧
        o.quantity = actual_quantity cexSide.perp_market_details q) ∧
    actual_price pmdExample 500 = 5 ∧
    actual_quantity pmdExample 200 = 1 / 50 :=
  c5_orders_scaling cexSide 10 cexOrdersList cexSide_orders_eval

/-- C6: when the synchronous fetch finds no account at the order book
address, `load` raises with no value, and the watcher builder raises with
the subscription manager and the health registry exactly as given: no
subscription is registered and no observer is returned. -/
theorem c6_fail_on_missing_account (fetch : ℕ → Option AccountInfo)
    (layout : OrderBookSideLayout) (manager : SubscriptionManager)
    (health_check : HealthCheck) (perp_market : PerpMarket)
    (side : OrderBookSideType) (pmd : PerpMarketDetails) (address fuel : ℕ)
    (haddr : address = (if side = OrderBookSideType.BIDS then
      perp_market.underlying_perp_market.bids
      else perp_market.underlying_perp_market.asks))
    (hfetch : fetch address = none) :
    OrderBookSide.load fetch layout address pmd =
      Except.error (LoadError.accountNotFound address) ∧
    build_perp_orderbook_side_watcher fetch layout manager health_check
        perp_market side fuel =
      (Except.error (LoadError.accountNotFound address), manager,
        health_check) := by
  subst haddr
  constructor
  · rw [OrderBookSide.load]
    simp [AccountInfo.load, hfetch]
  · rw [build_perp_orderbook_side_watcher]
    simp [AccountInfo.load, hfetch]

/-- C6 witness: with a fetch that finds nothing anywhere, loading the bids
address of the example market fails and building its watcher leaves the
empty manager and health registry untouched. -/
theorem c6_fail_on_missing_account_witness :
    OrderBookSide.load fetchNone layoutUnit 11 pmdUnit =
      Except.error (LoadError.accountNotFound 11) ∧
    build_perp_orderbook_side_watcher fetchNone layoutUnit manager0
        healthCheck0 perpMarketExample OrderBookSideType.BIDS 5 =
      (Except.error (LoadError.accountNotFound 11), manager0, healthCheck0) :=
  c6_fail_on_missing_account fetchNone layoutUnit manager0 healthCheck0
    perpMarketExample OrderBookSideType.BIDS pmdUnit 11 5 rfl rfl

/-- C7: when construction succeeds, the returned watcher's cell holds
exactly the orders of the side synchronously fetched and decoded from the
chosen address, before any asynchronous notification exists. -/
theorem c7_watcher_initial_latest (fetch : ℕ → Option AccountInfo)
    (layout : OrderBookSideLayout) (manager : SubscriptionManager)
    (health_check : HealthCheck) (perp_market : PerpMarket)
    (side : OrderBookSideType) (fuel address : ℕ) (ai : AccountInfo)
    (s : OrderBookSide)
    (haddr : address = (if side = OrderBookSideType.BIDS then
      perp_market.underlying_perp_market.bids
      else perp_market.underlying_perp_market.asks))
    (hfetch : fetch address = some ai)
    (hparse : OrderBookSide.parse layout ai
        perp_market.underlying_perp_market.details = Except.ok s) :
    build_perp_orderbook_side_watcher fetch layout manager health_check
        perp_market side fuel =
      (Except.ok { latest := s.orders fuel },
        { subscribed_addresses := manager.subscribed_addresses ++ [address] },
        { feed_names :=
            health_check.feed_names ++ ["orderbook_side_subscription"] }) := by
  subst haddr
  rw [build_perp_orderbook_side_watcher]
  simp [AccountInfo.load, hfetch, hparse]

/-- C7 witness: building the bids watcher of the example market over a fetch
that returns `aiGood` seeds the cell with the decoded side's orders and
registers the subscription and the feed. -/
theorem c7_watcher_initial_latest_witness :
    build_perp_orderbook_side_watcher fetchGood layoutUnit manager0
        healthCheck0 perpMarketExample OrderBookSideType.BIDS 5 =
      (Except.ok { latest := sideGood.orders 5 },
        { subscribed_addresses := [11] },
        { feed_names := ["orderbook_side_subscription"] }) :=
  c7_watcher_initial_latest fetchGood layoutUnit manager0 healthCheck0
    perpMarketExample OrderBookSideType.BIDS 5 11 aiGood sideGood rfl rfl rfl

/-- C8: on a decoded side whose reachable node graph is a finite acyclic
in-range tree, the traversal terminates: there is one finite order list that
every sufficiently large fuel yields. -/
theorem c8_orders_terminates (s : OrderBookSide) (d : ℕ)
    (hwf : wellFormedBelow s.nodes d s.root_node = true) :
    ∃ l : List Order, ∀ fuel, subtreeSize s.nodes d s.root_node ≤ fuel →
      s.orders fuel = some l := by
  by_cases h0 : s.leaf_count = 0
  · exact ⟨[], fun fuel _ => by simp [OrderBookSide.orders, h0]⟩
  · obtain ⟨l, hl⟩ : ∃ l, ordersLoop s.nodes s.perp_market_details s.order_side
        (subtreeSize s.nodes d s.root_node) [s.root_node] = some l := by
      have hsome := ordersLoop_isSome s.nodes s.perp_market_details
        s.order_side d (subtreeSize s.nodes d s.root_node) [s.root_node]
        (by
          intro i hi
          simp only [List.mem_singleton] at hi
          subst hi
          exact hwf)
        (by simp)
      exact Option.isSome_iff_exists.mp hsome
    refine ⟨l, fun fuel hfuel => ?_⟩
    rw [OrderBookSide.orders, if_neg h0]
    exact ordersLoop_mono s.nodes s.perp_market_details s.order_side
      (subtreeSize s.nodes d s.root_node) fuel [s.root_node] l hfuel hl

/-- C8 witness: the traversal of the concrete five-node tree terminates with
one fixed list at every fuel of at least its node count. -/
theorem c8_orders_terminates_witness :
    ∃ l : List Order, ∀ fuel, subtreeSize cexSide.nodes 3 cexSide.root_node ≤ fuel →
      cexSide.orders fuel = some l :=
  c8_orders_terminates cexSide 3 (by decide)

/-- C9: the traversal is a deterministic, stateless pure function of the
decoded tree: its result is unchanged when every field it does not read
(account info, version, bump index, free list bookkeeping) is replaced, so
two invocations on the same unchanged value always coincide. -/
theorem c9_orders_stateless (s : OrderBookSide) (fuel : ℕ)
    (ai : AccountInfo) (v : Version) (b fl fh : ℚ) :
    OrderBookSide.orders
      { s with
        account_info := ai
        version := v
        bump_index := b
        free_list_len := fl
        free_list_head := fh } fuel = s.orders fuel := rfl

/-- C10: every yielded order has order type `UNKNOWN`, and side `BUY`
exactly when the decoded `meta_data.data_type` is `Bids` (`SELL` otherwise),
independently of the leaf payloads. -/
theorem c10_orders_side_and_type (s : OrderBookSide) (fuel : ℕ)
    (l : List Order) (h : s.orders fuel = some l) :
    ∀ o ∈ l, o.order_type = OrderType.UNKNOWN ∧
      (o.side = Side.BUY ↔ s.meta_data.data_type = DataType.Bids) := by
  intro o ho
  rw [OrderBookSide.orders] at h
  by_cases h0 : s.leaf_count = 0
  · rw [if_pos h0] at h
    simp only [Option.some.injEq] at h
    subst h
    simp at ho
  · rw [if_neg h0] at h
    obtain ⟨i, kp, koid, q, own, coid, hn, rfl⟩ :=
      ordersLoop_mem s.nodes s.perp_market_details s.order_side fuel _ l h o ho
    refine ⟨rfl, ?_⟩
    have hside :
        (leafOrder s.perp_market_details s.order_side kp koid q own coid).side =
          s.order_side := rfl
    rw [hside, OrderBookSide.order_side]
    by_cases hb : s.meta_data.data_type = DataType.Bids
    · simp [hb]
    · simp [hb]

/-- C10 witness: the side/type property instantiated at the head order of
the concrete counterexample run. -/
theorem c10_orders_side_and_type_witness :
    (leafOrder pmdUnit Side.BUY 1 10 1 7 100).order_type = OrderType.UNKNOWN ∧
    ((leafOrder pmdUnit Side.BUY 1 10 1 7 100).side = Side.BUY ↔
      cexSide.meta_data.data_type = DataType.Bids) :=
  c10_orders_side_and_type cexSide 10 cexOrdersList cexSide_orders_eval
    (leafOrder pmdUnit Side.BUY 1 10 1 7 100) (by simp [cexOrdersList])

end Mango
